import Mathlib

/-!
Verification of the DDPG trainer core (`ml/rl/training/ddpg_trainer.py`).

Shallow embedding conventions: tensors are lists of rationals (`List ℚ`) and a
batch is a list of rows; float arithmetic is modelled exactly over ℚ; every
Gaussian draw (`np.random.randn`) is an explicit argument, so stochastic code
becomes a deterministic function of its draws; stateful objects are passed and
returned explicitly.
-/

namespace DDPG

/-- A batch of row vectors (a two-dimensional tensor). -/
abbrev Batch := List (List ℚ)

/-- Total two-level indexing into a list of tensors (entry `j` of tensor `i`). -/
def at2 (xss : List (List ℚ)) (i j : ℕ) : ℚ := (xss.getD i []).getD j 0

/-- One tensor of `DDPGTrainer._soft_update`:
`new_param = tau * param.data + (1.0 - tau) * t_param.data`, elementwise. -/
def softUpdateTensor (tau : ℚ) (param tparam : List ℚ) : List ℚ :=
  List.zipWith (fun p t => tau * p + (1 - tau) * t) param tparam

/-- `DDPGTrainer._soft_update` over the zipped parameter tensors of a
network/target-network pair:
`for t_param, param in zip(target_network.parameters(), network.parameters())`,
each target tensor is overwritten with the blend. -/
def softUpdate (tau : ℚ) (params tparams : List (List ℚ)) : List (List ℚ) :=
  List.zipWith (softUpdateTensor tau) params tparams

/-- Bellman target vector built by `DDPGTrainer.train`:
`done = terminal.astype(int)`, `not_done_mask = 1 - done`,
`discount_tensor = [gamma for x in range(len(rewards))]`,
`filtered_q_s2_a2 = not_done_mask * q_s2_a2`,
`target_q_values = rewards + discount_tensor.pow(time_diffs) * filtered_q_s2_a2`.
The target critic's output on `(next_states, actor_target(next_states))` is the
argument `qNext`; `timeDiffs` holds the elapsed-step counts (float-valued in the
source, integral per the data model). -/
def bellmanTargets (gamma : ℚ) (rewards : List ℚ) (timeDiffs : List ℕ)
    (terminal : List Bool) (qNext : List ℚ) : List ℚ :=
  let done := terminal.map (fun b => if b then (1 : ℚ) else 0)
  let notDone := done.map (fun d => 1 - d)
  let discount := rewards.map (fun _ => gamma)
  let filtered := List.zipWith (· * ·) notDone qNext
  List.zipWith (· + ·) rewards
    (List.zipWith (· * ·) (List.zipWith (fun g k => g ^ k) discount timeDiffs) filtered)

/-- States as read by `DDPGTrainer.train`: `training_samples[0]`. -/
def trainStates (batch : Batch) : List ℚ := batch.getD 0 []

/-- Actions as read by `DDPGTrainer.train`: `training_samples[1]`. -/
def trainActions (batch : Batch) : List ℚ := batch.getD 1 []

/-- Rewards as read by `DDPGTrainer.train`: `training_samples[2]`. -/
def trainRewards (batch : Batch) : List ℚ := batch.getD 2 []

/-- Next states as read by `DDPGTrainer.train`: `training_samples[3]`. -/
def trainNextStates (batch : Batch) : List ℚ := batch.getD 3 []

/-- Terminal flags as read by `DDPGTrainer.train`: `training_samples[5]`,
stored 0/1 valued (`astype(int)` in the source). -/
def trainTerminal (batch : Batch) : List ℚ := batch.getD 5 []

/-- Time diffs as read by `DDPGTrainer.train`: `training_samples[8]`. -/
def trainTimeDiffs (batch : Batch) : List ℚ := batch.getD 8 []

/-- Exponent carried by a stored time-diff entry (a nonnegative integer stored
as a rational, matching the float tensor holding integral values). -/
def toExp (t : ℚ) : ℕ := t.num.toNat

/-- Bellman targets computed from a positional training batch, indexing the
fields exactly as `DDPGTrainer.train` does (rewards from field 2, terminal
flags from field 5, time diffs from field 8). -/
def trainTargets (gamma : ℚ) (batch : Batch) (qNext : List ℚ) : List ℚ :=
  let rewards := trainRewards batch
  let notDone := (trainTerminal batch).map (fun d => 1 - d)
  let discount := rewards.map (fun _ => gamma)
  let filtered := List.zipWith (· * ·) notDone qNext
  List.zipWith (· + ·) rewards
    (List.zipWith (· * ·)
      (List.zipWith (fun g t => g ^ toExp t) discount (trainTimeDiffs batch)) filtered)

/-- Bellman targets as the spec's batch contract reads the fields: an 8-field
structure with `time_diff` in field index 7 (spec section 6). Stated only for
comparison with `trainTargets`, which follows the source. -/
def specTrainTargets (gamma : ℚ) (batch : Batch) (qNext : List ℚ) : List ℚ :=
  let rewards := batch.getD 2 []
  let notDone := (batch.getD 5 []).map (fun d => 1 - d)
  let discount := rewards.map (fun _ => gamma)
  let filtered := List.zipWith (· * ·) notDone qNext
  List.zipWith (· + ·) rewards
    (List.zipWith (· * ·)
      (List.zipWith (fun g t => g ^ toExp t) discount (batch.getD 7 [])) filtered)

/-- State of an `OrnsteinUhlenbeckProcessNoise` object. -/
structure OUNoise where
  actionDim : ℕ
  theta : ℚ
  sigma : ℚ
  mu : ℚ
  noise : List ℚ

/-- `OrnsteinUhlenbeckProcessNoise.get_noise`:
`term_1 = theta * (mu - noise)`, `dx = term_1 + sigma * randn(action_dim)`,
returns `noise + dx`. The Gaussian draw is the explicit argument `eps`. The
second component is the object state after the call: the source never assigns
`self.noise`, so the state comes back unchanged. -/
def getNoise (s : OUNoise) (eps : List ℚ) : List ℚ × OUNoise :=
  let term1 := s.noise.map (fun n => s.theta * (s.mu - n))
  let dx := List.zipWith (fun t e => t + s.sigma * e) term1 eps
  (List.zipWith (· + ·) s.noise dx, s)

/-- The noise recurrence as the spec states it (section 4.3): `sample()` returns
the new vector and also stores it back,
`state <- state + theta * (mu - state) + sigma * eps`. Stated only for
comparison with `getNoise`, which follows the source. -/
def specGetNoise (s : OUNoise) (eps : List ℚ) : List ℚ × OUNoise :=
  let v := (getNoise s eps).1
  (v, { s with noise := v })

/-- Noise addition of `DDPGTrainer.internal_prediction`:
`actions = [x + (self.noise.get_noise()) for x in actions]` — one `get_noise()`
call per row, each consuming the next Gaussian draw of `epsStream`, threading
the noise object's state through the calls. -/
def addNoiseRows : OUNoise → Batch → List (List ℚ) → Batch
  | _, [], _ => []
  | gen, r :: rs, eps =>
    let call := getNoise gen (eps.headD [])
    List.zipWith (· + ·) r call.1 :: addNoiseRows call.2 rs eps.tail

/-- Noise addition as the spec states it (section 4.6): one noise sample drawn
once and the same vector added to every row. Stated only for comparison with
`addNoiseRows`, which follows the source. -/
def specAddNoiseRows (gen : OUNoise) (rows : Batch) (epsStream : List (List ℚ)) : Batch :=
  let v := (getNoise gen (epsStream.headD [])).1
  rows.map (fun r => List.zipWith (· + ·) r v)

/-- Python value held by the configured action range
(`env_details["action_range"]`), as tested by `if self.action_range:`. -/
inductive PyVal where
  | pnone : PyVal
  | pnum : ℚ → PyVal
  | plist : List ℚ → PyVal
  deriving DecidableEq

/-- Python truthiness: `None`, numeric zero and the empty sequence are falsy. -/
def PyVal.truthy : PyVal → Bool
  | .pnone => false
  | .pnum q => decide (q ≠ 0)
  | .plist xs => decide (xs ≠ [])

/-- `np.clip(x, -1, 1)` on one scalar. -/
def clip1 (x : ℚ) : ℚ := max (-1) (min x 1)

/-- `self.action_range * np.clip(action, -1, 1)` for one action row. -/
def scaleAction (r : PyVal) (a : List ℚ) : List ℚ :=
  match r with
  | .pnone => a
  | .pnum q => a.map (fun x => q * clip1 x)
  | .plist xs => List.zipWith (fun ri x => ri * clip1 x) xs a

/-- Post-processing of `DDPGTrainer.internal_prediction`: `rawActions` is the
actor's output batch; if `noisy`, one `get_noise()` call is made per row; then
the result is either clipped to `[-1, 1]` and scaled by the action range (when
the range is truthy) or returned raw (the float32 cast is the identity in the
exact ℚ model). -/
def internalPrediction (actionRange : PyVal) (noisy : Bool) (gen : OUNoise)
    (epsStream : List (List ℚ)) (rawActions : Batch) : Batch :=
  let actions := if noisy then addNoiseRows gen rawActions epsStream else rawActions
  if actionRange.truthy then actions.map (scaleAction actionRange) else actions

/-- Construction-time failures. The source raises `NotImplementedError` for an
unsupported optimizer name and `AssertionError` for a layer schema shorter
than 3 entries; the spec's error taxonomy (section 7) groups both under
ConfigurationError. -/
inductive ConfigError where
  | unsupportedOptimizer : String → ConfigError
  | invalidLayerSchema : List ℤ → ConfigError
  deriving DecidableEq

/-- Static shape of an `ActorNet`: `(in_features, out_features)` of each linear
layer, plus the batch-norm widths, as built by `ActorNet.__init__`. -/
structure ActorNetM where
  linearDims : List (ℤ × ℤ)
  batchNormDims : List ℤ
  activations : List String

/-- `ActorNet.__init__`: asserts `len(layers) >= 3`, then for `i, layer` over
`layers[1:]` appends `nn.Linear(layers[i], layer)` and
`nn.BatchNorm1d(layers[i])`. -/
def mkActorNet (layers : List ℤ) (activations : List String) :
    Except ConfigError ActorNetM :=
  if 3 ≤ layers.length then
    .ok { linearDims := List.zipWith (fun a b => (a, b)) layers layers.tail
        , batchNormDims := layers.dropLast
        , activations := activations }
  else
    .error (.invalidLayerSchema layers)

/-- Static shape of a `CriticNet`, as built by `CriticNet.__init__`. -/
structure CriticNetM where
  linearDims : List (ℤ × ℤ)
  batchNormDims : List ℤ
  activations : List String

/-- `CriticNet.__init__`: asserts `len(layers) >= 3`; layer 0 is
`Linear(layers[0], layers[1])` with `BatchNorm1d(layers[0])`, layer 1 is
`Linear(layers[1] + action_dim, layers[2])` with `BatchNorm1d(layers[1])`, and
every layer `i >= 2` is `Linear(layers[i], layers[i+1])` with no batch norm. -/
def mkCriticNet (layers : List ℤ) (activations : List String) (actionDim : ℤ) :
    Except ConfigError CriticNetM :=
  if 3 ≤ layers.length then
    .ok { linearDims :=
          (List.range (layers.length - 1)).map (fun i =>
            (if i = 1 then layers.getD i 0 + actionDim else layers.getD i 0,
             layers.getD (i + 1) 0))
        , batchNormDims := layers.take 2
        , activations := activations }
  else
    .error (.invalidLayerSchema layers)

/-- The two networks owned by a constructed trainer. -/
structure TrainerM where
  actor : ActorNetM
  critic : CriticNetM

/-- The `layers[0] = ...; layers[-1] = ...` rewrite `DDPGTrainer.__init__`
applies to each configured layer list before constructing the network. -/
def overwriteEnds (layers : List ℤ) (first last : ℤ) : List ℤ :=
  (layers.set 0 first).set (layers.length - 1) last

/-- `DDPGTrainer.__init__` construction checks, in source order: the optimizer
name is tested first (anything other than `"ADAM"` raises), then the actor and
the critic are built, each asserting its own layer schema. The actor layer list
gets `state_dim`/`action_dim` written into its ends, the critic's gets
`state_dim`/`1`. -/
def mkDDPGTrainer (optimizer : String) (stateDim actionDim : ℤ)
    (actorLayers : List ℤ) (actorActivations : List String)
    (criticLayers : List ℤ) (criticActivations : List String) :
    Except ConfigError TrainerM :=
  if optimizer = "ADAM" then
    match mkActorNet (overwriteEnds actorLayers stateDim actionDim) actorActivations with
    | .error e => .error e
    | .ok actor =>
      match mkCriticNet (overwriteEnds criticLayers stateDim 1) criticActivations actionDim with
      | .error e => .error e
      | .ok critic => .ok { actor := actor, critic := critic }
  else
    .error (.unsupportedOptimizer optimizer)

/-- A linear layer with its stored input width (`in_features`), weight matrix
(one row per output feature) and bias. -/
structure LinearM where
  inF : ℕ
  weight : List (List ℚ)
  bias : List ℚ

/-- Dot product of two rational vectors. -/
def dotQ (xs ys : List ℚ) : ℚ := (List.zipWith (· * ·) xs ys).sum

/-- `nn.Linear` applied to one row: `W x + b`. -/
def LinearM.apply (l : LinearM) (x : List ℚ) : List ℚ :=
  List.zipWith (fun row b => dotQ row x + b) l.weight l.bias

/-- A linear layer mapped over a batch of rows. -/
def linearBatch (l : LinearM) (xs : Batch) : Batch := xs.map l.apply

/-- Default layer used for total indexing of `self.layers[i]`. -/
def defaultLinear : LinearM := { inF := 0, weight := [], bias := [] }

/-- Per-layer activation step of both forward passes:
`x = fc_func(x) if activation == "linear" else activation_func(fc_func(x))`,
where `actSem` models the `getattr(F, name)` activation table, applied
elementwise over the batch. -/
def applyAct (actSem : String → ℚ → ℚ) (a : String) (xs : Batch) : Batch :=
  if a = "linear" then xs else xs.map (fun r => r.map (actSem a))

/-- The layer loop of `CriticNet.forward` starting at layer index `i`: at
`i = 0` the running value is batch-normalized; at `i = 1` it is
batch-normalized and then the action rows are concatenated onto it; at
`i >= 2` it is consumed directly; each step then applies the linear layer and
its activation. `bn i` models `self.batch_norm_ops[i]` as an opaque
batch-level map (its placement, not its statistics, is under study). -/
def criticLoop (bn : ℕ → Batch → Batch) (actSem : String → ℚ → ℚ)
    (layers : List LinearM) (action : Batch) : ℕ → List String → Batch → Batch
  | _, [], x => x
  | i, a :: rest, x =>
    let x1 := if i = 0 then bn 0 x
      else if i = 1 then List.zipWith (· ++ ·) (bn 1 x) action
      else x
    criticLoop bn actSem layers action (i + 1) rest
      (applyAct actSem a (linearBatch (layers.getD i defaultLinear) x1))

/-- `CriticNet.forward`: the concatenated input batch is split into state and
action slices at `self.layers[0].in_features`, and the state slice is fed to
the layer loop from index 0. -/
def criticForward (bn : ℕ → Batch → Batch) (actSem : String → ℚ → ℚ)
    (layers : List LinearM) (activations : List String) (stateAction : Batch) : Batch :=
  let stateDim := (layers.headD defaultLinear).inF
  let state := stateAction.map (fun r => r.take stateDim)
  let action := stateAction.map (fun r => r.drop stateDim)
  criticLoop bn actSem layers action 0 activations state

/-- Plain stacked layers: linear transform and activation only — no batch
norm, no action injection. Used to characterize the critic layers of index
at least 2. -/
def plainLayers (actSem : String → ℚ → ℚ) (layers : List LinearM) :
    ℕ → List String → Batch → Batch
  | _, [], x => x
  | i, a :: rest, x =>
    plainLayers actSem layers (i + 1) rest
      (applyAct actSem a (linearBatch (layers.getD i defaultLinear) x))

/-- Identity of one parameter tensor of the trainer. The four module instances
(`self.actor`, `self.critic`, `self.actor_target`, `self.critic_target`) own
pairwise distinct parameter tensor objects, and a torch optimizer updates
exactly the tensors it was constructed over. -/
inductive ParamRef where
  | actorP : ℕ → ParamRef
  | criticP : ℕ → ParamRef
  | actorTargetP : ℕ → ParamRef
  | criticTargetP : ℕ → ParamRef
  deriving DecidableEq

/-- `self.actor.parameters()`: the tensors the actor optimizer is constructed
over (`self.actor_optimizer = self.optimizer_func(self.actor.parameters(), ...)`),
for an actor with `n` parameter tensors. -/
def actorOptimizerParams (n : ℕ) : List ParamRef :=
  (List.range n).map ParamRef.actorP

/-- One optimizer step: applies the update rule `upd` (an arbitrary gradient
step) to exactly the parameter tensors the optimizer owns, leaving every other
tensor of the store untouched. -/
def optimStep (owned : List ParamRef) (upd : ParamRef → List ℚ → List ℚ)
    (store : ParamRef → List ℚ) : ParamRef → List ℚ :=
  fun p => if p ∈ owned then upd p (store p) else store p

/-- Helper: a zipped blend with coefficient 1 on the left returns the left list
when it is no longer than the right one. -/
lemma softUpdateTensor_one : ∀ (p t : List ℚ), p.length ≤ t.length →
    softUpdateTensor 1 p t = p
  | [], _, _ => rfl
  | _ :: _, [], h => by simp at h
  | a :: as, b :: bs, h => by
    have ih := softUpdateTensor_one as bs (by simpa using h)
    simp only [softUpdateTensor, List.zipWith_cons_cons] at ih ⊢
    rw [ih]
    norm_num

/-- Helper: a zipped blend with coefficient 0 on the left returns the right list
when it is no longer than the left one. -/
lemma softUpdateTensor_zero : ∀ (p t : List ℚ), t.length ≤ p.length →
    softUpdateTensor 0 p t = t
  | [], [], _ => rfl
  | [], _ :: _, h => by simp at h
  | _ :: _, [], _ => rfl
  | a :: as, b :: bs, h => by
    have ih := softUpdateTensor_zero as bs (by simpa using h)
    simp only [softUpdateTensor, List.zipWith_cons_cons] at ih ⊢
    rw [ih]
    norm_num

/-- Helper: with matching shapes, the soft update at `tau = 1` returns the live
parameter tensors. -/
lemma softUpdate_one : ∀ (live target : List (List ℚ)), live.length = target.length →
    (∀ i, (live.getD i []).length = (target.getD i []).length) →
    softUpdate 1 live target = live
  | [], [], _, _ => rfl
  | [], _ :: _, h, _ => by simp at h
  | _ :: _, [], h, _ => by simp at h
  | p :: ps, t :: ts, h, hs => by
    have h0 := hs 0
    simp only [List.getD_cons_zero] at h0
    have ih := softUpdate_one ps ts (by simpa using h)
      (fun i => by simpa [List.getD_cons_succ] using hs (i + 1))
    simp only [softUpdate, List.zipWith_cons_cons] at ih ⊢
    rw [ih, softUpdateTensor_one p t (le_of_eq h0)]

/-- Helper: with matching shapes, the soft update at `tau = 0` returns the
target parameter tensors. -/
lemma softUpdate_zero : ∀ (live target : List (List ℚ)), live.length = target.length →
    (∀ i, (live.getD i []).length = (target.getD i []).length) →
    softUpdate 0 live target = target
  | [], [], _, _ => rfl
  | [], _ :: _, h, _ => by simp at h
  | _ :: _, [], h, _ => by simp at h
  | p :: ps, t :: ts, h, hs => by
    have h0 := hs 0
    simp only [List.getD_cons_zero] at h0
    have ih := softUpdate_zero ps ts (by simpa using h)
      (fun i => by simpa [List.getD_cons_succ] using hs (i + 1))
    simp only [softUpdate, List.zipWith_cons_cons] at ih ⊢
    rw [ih, softUpdateTensor_zero p t (le_of_eq h0.symm)]

/-- C1. `DDPGTrainer._soft_update` replaces each target parameter, for every
tensor of a shape-matched network/target pair, with the exact convex
combination `tau * live + (1 - tau) * target`; `tau = 1` yields an exact copy
of the live parameters and `tau = 0` leaves every target parameter unchanged. -/
theorem soft_update_convex_combination (tau : ℚ) (live target : List (List ℚ))
    (hlen : live.length = target.length)
    (hshape : ∀ i, (live.getD i []).length = (target.getD i []).length) :
    (∀ i j, i < live.length → j < (live.getD i []).length →
      at2 (softUpdate tau live target) i j
        = tau * at2 live i j + (1 - tau) * at2 target i j)
    ∧ (tau = 1 → softUpdate tau live target = live)
    ∧ (tau = 0 → softUpdate tau live target = target) := by
  refine ⟨?_, ?_, ?_⟩
  · intro i j hi hj
    have hit : i < target.length := by omega
    have hilen : i < (softUpdate tau live target).length := by
      simp only [softUpdate, List.length_zipWith]
      omega
    have hgl : live.getD i [] = live.get ⟨i, hi⟩ := List.getD_eq_getElem live [] hi
    have hgt : target.getD i [] = target.get ⟨i, hit⟩ := List.getD_eq_getElem target [] hit
    have hj1 : j < (live.get ⟨i, hi⟩).length := by rw [← hgl]; exact hj
    have hj2 : j < (target.get ⟨i, hit⟩).length := by
      rw [← hgt, ← hshape i]; exact hj
    have hsu : (softUpdate tau live target).getD i []
        = softUpdateTensor tau (live.get ⟨i, hi⟩) (target.get ⟨i, hit⟩) := by
      rw [List.getD_eq_getElem _ [] hilen]
      simp [softUpdate, List.getElem_zipWith]
    have hjlen : j < (softUpdateTensor tau (live.get ⟨i, hi⟩) (target.get ⟨i, hit⟩)).length := by
      simp only [softUpdateTensor, List.length_zipWith]
      omega
    unfold at2
    rw [hsu, hgl, hgt, List.getD_eq_getElem _ 0 hjlen,
      List.getD_eq_getElem _ 0 hj1, List.getD_eq_getElem _ 0 hj2]
    simp [softUpdateTensor, List.getElem_zipWith]
  · intro h
    subst h
    exact softUpdate_one live target hlen hshape
  · intro h
    subst h
    exact softUpdate_zero live target hlen hshape

/-- Witness for C1 on a concrete two-tensor pair. -/
theorem soft_update_convex_combination_witness :
    at2 (softUpdate (1/4) [[1, 2], [3]] [[5, 6], [7]]) 0 1
      = (1/4) * at2 [[1, 2], [3]] 0 1 + (1 - 1/4) * at2 [[5, 6], [7]] 0 1
    ∧ softUpdate 1 [[1, 2], [3]] [[5, 6], [7]] = [[1, 2], [3]]
    ∧ softUpdate 0 [[1, 2], [3]] [[5, 6], [7]] = [[5, 6], [7]] := by
  have hs : ∀ i, (([[1, 2], [3]] : List (List ℚ)).getD i []).length
      = (([[5, 6], [7]] : List (List ℚ)).getD i []).length := by
    intro i
    match i with
    | 0 => rfl
    | 1 => rfl
    | n + 2 => rfl
  exact ⟨(soft_update_convex_combination (1/4) [[1, 2], [3]] [[5, 6], [7]] rfl hs).1
      0 1 (by decide) (by decide),
    (soft_update_convex_combination 1 [[1, 2], [3]] [[5, 6], [7]] rfl hs).2.1 rfl,
    (soft_update_convex_combination 0 [[1, 2], [3]] [[5, 6], [7]] rfl hs).2.2 rfl⟩

/-- Helper: length of the Bellman target vector of a batch-aligned batch. -/
lemma bellmanTargets_length (gamma : ℚ) (rewards qNext : List ℚ)
    (timeDiffs : List ℕ) (terminal : List Bool)
    (h1 : timeDiffs.length = rewards.length) (h2 : terminal.length = rewards.length)
    (h3 : qNext.length = rewards.length) :
    (bellmanTargets gamma rewards timeDiffs terminal qNext).length = rewards.length := by
  simp only [bellmanTargets, List.length_zipWith, List.length_map]
  omega

/-- Helper: elementwise closed form of the Bellman target vector. -/
lemma bellmanTargets_getD (gamma : ℚ) (rewards qNext : List ℚ)
    (timeDiffs : List ℕ) (terminal : List Bool)
    (h1 : timeDiffs.length = rewards.length) (h2 : terminal.length = rewards.length)
    (h3 : qNext.length = rewards.length) (i : ℕ) (hi : i < rewards.length) :
    (bellmanTargets gamma rewards timeDiffs terminal qNext).getD i 0
      = rewards.getD i 0 + gamma ^ (timeDiffs.getD i 0)
          * ((1 - (if terminal.getD i false then (1 : ℚ) else 0)) * qNext.getD i 0) := by
  have hlen := bellmanTargets_length gamma rewards qNext timeDiffs terminal h1 h2 h3
  rw [List.getD_eq_getElem _ 0 (by omega : i < (bellmanTargets gamma rewards
      timeDiffs terminal qNext).length)]
  rw [List.getD_eq_getElem rewards 0 hi,
    List.getD_eq_getElem timeDiffs 0 (by omega : i < timeDiffs.length),
    List.getD_eq_getElem terminal false (by omega : i < terminal.length),
    List.getD_eq_getElem qNext 0 (by omega : i < qNext.length)]
  simp [bellmanTargets, List.getElem_zipWith, List.getElem_map]

/-- C2. For every terminal sample of a batch-aligned training batch, the Bellman
target computed by `DDPGTrainer.train` equals that sample's reward exactly,
whatever `gamma`, the time diff and the target critic's output are. -/
theorem bellman_terminal_eq_reward (gamma : ℚ) (rewards qNext : List ℚ)
    (timeDiffs : List ℕ) (terminal : List Bool)
    (h1 : timeDiffs.length = rewards.length) (h2 : terminal.length = rewards.length)
    (h3 : qNext.length = rewards.length) (i : ℕ) (hi : i < rewards.length)
    (ht : terminal.getD i false = true) :
    (bellmanTargets gamma rewards timeDiffs terminal qNext).getD i 0
      = rewards.getD i 0 := by
  rw [bellmanTargets_getD gamma rewards qNext timeDiffs terminal h1 h2 h3 i hi, ht]
  norm_num

/-- Witness for C2: a terminal sample with nonzero discount, time diff and
critic output still gets exactly its reward as target. -/
theorem bellman_terminal_eq_reward_witness :
    (bellmanTargets (9/10) [5, 2] [3, 1] [true, false] [7, 7]).getD 0 0
      = ([5, 2] : List ℚ).getD 0 0 :=
  bellman_terminal_eq_reward (9/10) [5, 2] [7, 7] [3, 1] [true, false]
    rfl rfl rfl 0 (by decide) rfl

/-- C3. For every non-terminal sample with `time_diff = k`, the factor applied
by `DDPGTrainer.train` to the target critic's output is `gamma ^ k` with the
per-sample exponent `k`; for `k` in 1, 2, 5 it equals the directly computed
product. -/
theorem bellman_discount_pow_time_diff (gamma : ℚ) (rewards qNext : List ℚ)
    (timeDiffs : List ℕ) (terminal : List Bool)
    (h1 : timeDiffs.length = rewards.length) (h2 : terminal.length = rewards.length)
    (h3 : qNext.length = rewards.length) (i : ℕ) (hi : i < rewards.length)
    (ht : terminal.getD i false = false) :
    (bellmanTargets gamma rewards timeDiffs terminal qNext).getD i 0
      = rewards.getD i 0 + gamma ^ (timeDiffs.getD i 0) * qNext.getD i 0
    ∧ gamma ^ (1 : ℕ) = gamma
    ∧ gamma ^ (2 : ℕ) = gamma * gamma
    ∧ gamma ^ (5 : ℕ) = gamma * gamma * gamma * gamma * gamma := by
  refine ⟨?_, by ring, by ring, by ring⟩
  rw [bellmanTargets_getD gamma rewards qNext timeDiffs terminal h1 h2 h3 i hi, ht]
  norm_num

/-- Witness for C3 at a concrete non-terminal sample with `time_diff = 5`. -/
theorem bellman_discount_pow_time_diff_witness :
    (bellmanTargets (9/10) [5] [5] [false] [7]).getD 0 0
      = ([5] : List ℚ).getD 0 0
        + (9/10 : ℚ) ^ (([5] : List ℕ).getD 0 0) * ([7] : List ℚ).getD 0 0
    ∧ (9/10 : ℚ) ^ (1 : ℕ) = 9/10
    ∧ (9/10 : ℚ) ^ (2 : ℕ) = (9/10) * (9/10)
    ∧ (9/10 : ℚ) ^ (5 : ℕ) = (9/10) * (9/10) * (9/10) * (9/10) * (9/10) :=
  bellman_discount_pow_time_diff (9/10) [5] [7] [5] [false]
    rfl rfl rfl 0 (by decide) rfl

/-- C4. `OrnsteinUhlenbeckProcessNoise.get_noise` never writes `self.noise`:
the internal state after any call equals the state before it, so the code is
evaluated here at the failing input: after a first call on the zero state with
draw `[1]` (which returns `[1/50]`), a second call with draw `[0]` returns
`[0]` — as if the first call had never happened — while the recurrence the
class documents (and spec section 4.3 states) would return `[17/1000]`. -/
theorem ou_get_noise_state_frozen :
    (∀ (s : OUNoise) (eps : List ℚ), (getNoise s eps).2 = s)
    ∧ (getNoise ⟨1, 3/20, 1/50, 0, [0]⟩ [1]).1 = [1/50]
    ∧ (getNoise (getNoise ⟨1, 3/20, 1/50, 0, [0]⟩ [1]).2 [0]).1 = [0]
    ∧ (specGetNoise ⟨1, 3/20, 1/50, 0, [0]⟩ [1]).1 = [1/50]
    ∧ (specGetNoise (specGetNoise ⟨1, 3/20, 1/50, 0, [0]⟩ [1]).2 [0]).1 = [17/1000] :=
  ⟨fun _ _ => rfl,
    by norm_num [getNoise],
    by norm_num [getNoise],
    by norm_num [specGetNoise, getNoise],
    by norm_num [specGetNoise, getNoise]⟩

/-- Counterexample to C5: on a batch whose field 7 holds time diff 1 and whose
field 8 holds time diff 2 (reward 0, non-terminal, target critic output 1,
`gamma = 1/2`), `DDPGTrainer.train` produces the target `[1/4]` — the exponent
came from field 8 — whereas reading `time_diff` from field 7, as the claim
states, would produce `[1/2]`. -/
theorem train_time_diff_index_counterexample :
    trainTargets (1/2) [[0], [0], [0], [0], [0], [0], [0], [1], [2]] [1] = [1/4]
    ∧ specTrainTargets (1/2) [[0], [0], [0], [0], [0], [0], [0], [1], [2]] [1] = [1/2]
    ∧ trainTargets (1/2) [[0], [0], [0], [0], [0], [0], [0], [1], [2]] [1]
        ≠ specTrainTargets (1/2) [[0], [0], [0], [0], [0], [0], [0], [1], [2]] [1] := by
  have he1 : toExp 1 = 1 := rfl
  have he2 : toExp 2 = 2 := rfl
  have h1 : trainTargets (1/2) [[0], [0], [0], [0], [0], [0], [0], [1], [2]] [1]
      = [1/4] := by
    norm_num [trainTargets, trainRewards, trainTerminal, trainTimeDiffs, he2]
  have h2 : specTrainTargets (1/2) [[0], [0], [0], [0], [0], [0], [0], [1], [2]] [1]
      = [1/2] := by
    norm_num [specTrainTargets, he1]
  refine ⟨h1, h2, ?_⟩
  rw [h1, h2]
  norm_num

/-- C5 (amended). `DDPGTrainer.train` reads states, actions, rewards and next
states from fields 0 to 3, the terminal flags from field 5 and the time diffs
from field 8 (the ninth field) of the positional batch; the Bellman target
depends on none of the fields 4, 6 and 7. -/
theorem train_field_indices (gamma : ℚ) (f0 f1 f2 f3 f4 f5 f6 f7 f8 g4 g6 g7 qNext : List ℚ) :
    trainStates [f0, f1, f2, f3, f4, f5, f6, f7, f8] = f0
    ∧ trainActions [f0, f1, f2, f3, f4, f5, f6, f7, f8] = f1
    ∧ trainRewards [f0, f1, f2, f3, f4, f5, f6, f7, f8] = f2
    ∧ trainNextStates [f0, f1, f2, f3, f4, f5, f6, f7, f8] = f3
    ∧ trainTerminal [f0, f1, f2, f3, f4, f5, f6, f7, f8] = f5
    ∧ trainTimeDiffs [f0, f1, f2, f3, f4, f5, f6, f7, f8] = f8
    ∧ trainTargets gamma [f0, f1, f2, f3, f4, f5, f6, f7, f8] qNext
        = trainTargets gamma [f0, f1, f2, f3, g4, f5, g6, g7, f8] qNext :=
  ⟨rfl, rfl, rfl, rfl, rfl, rfl, rfl⟩

/-- Counterexample to C6: with internal state zero, `theta = 3/20`,
`sigma = 1/50`, `mu = 0` and successive Gaussian draws `[1]` then `[0]`, the
comprehension of `internal_prediction` adds `[1/50]` to row 0 and `[0]` to
row 1 — one fresh `get_noise()` call per row — while one shared draw, as the
claim states, would add `[1/50]` to both rows. -/
theorem noise_per_row_counterexample :
    addNoiseRows ⟨1, 3/20, 1/50, 0, [0]⟩ [[0], [0]] [[1], [0]] = [[1/50], [0]]
    ∧ specAddNoiseRows ⟨1, 3/20, 1/50, 0, [0]⟩ [[0], [0]] [[1], [0]]
        = [[1/50], [1/50]]
    ∧ addNoiseRows ⟨1, 3/20, 1/50, 0, [0]⟩ [[0], [0]] [[1], [0]]
        ≠ specAddNoiseRows ⟨1, 3/20, 1/50, 0, [0]⟩ [[0], [0]] [[1], [0]] := by
  have h1 : addNoiseRows ⟨1, 3/20, 1/50, 0, [0]⟩ [[0], [0]] [[1], [0]]
      = [[1/50], [0]] := by
    norm_num [addNoiseRows, getNoise]
  have h2 : specAddNoiseRows ⟨1, 3/20, 1/50, 0, [0]⟩ [[0], [0]] [[1], [0]]
      = [[1/50], [1/50]] := by
    norm_num [specAddNoiseRows, getNoise]
  refine ⟨h1, h2, ?_⟩
  rw [h1, h2]
  norm_num

/-- C6 (amended). With `noisy=true`, `internal_prediction` makes one
`get_noise()` call per produced action row, each consuming its own fresh
Gaussian draw; since `get_noise` never advances the internal state, every call
starts from the same state `gen`, but the added vectors differ per row through
their draws — they are not one shared sample vector. -/
theorem noise_added_per_row (gen : OUNoise) (rows : Batch) (epsStream : List (List ℚ))
    (h : rows.length ≤ epsStream.length) :
    addNoiseRows gen rows epsStream
      = List.zipWith (fun r e => List.zipWith (· + ·) r (getNoise gen e).1) rows epsStream := by
  induction rows generalizing epsStream with
  | nil => rfl
  | cons r rs ih =>
    cases epsStream with
    | nil => simp at h
    | cons e es =>
      have hgen : (getNoise gen e).2 = gen := rfl
      simp only [addNoiseRows, List.headD_cons, List.tail_cons,
        List.zipWith_cons_cons, hgen]
      rw [ih es (by simpa using h)]

/-- Witness for C6 (amended) on a concrete two-row batch. -/
theorem noise_added_per_row_witness :
    addNoiseRows ⟨1, 3/20, 1/50, 0, [0]⟩ [[0], [0]] [[1], [0]]
      = List.zipWith
          (fun r e => List.zipWith (· + ·) r (getNoise ⟨1, 3/20, 1/50, 0, [0]⟩ e).1)
          [[0], [0]] [[1], [0]] :=
  noise_added_per_row ⟨1, 3/20, 1/50, 0, [0]⟩ [[0], [0]] [[1], [0]] (by decide)

/-- Helper: overwriting the end entries of a layer list preserves its length. -/
lemma overwriteEnds_length (l : List ℤ) (a b : ℤ) :
    (overwriteEnds l a b).length = l.length := by
  simp [overwriteEnds]

/-- C7. Trainer construction fails immediately (with the spec's
ConfigurationError taxonomy) when the optimizer name is not `"ADAM"`, and when
either network's layer list is shorter than 3 entries; with both lists of
length at least 3 construction succeeds and each network has exactly
`len(layers) - 1` linear layers. -/
theorem construction_validation (opt : String) (sd ad : ℤ)
    (aL cL : List ℤ) (aA cA : List String) :
    (opt ≠ "ADAM" →
      mkDDPGTrainer opt sd ad aL aA cL cA = .error (.unsupportedOptimizer opt))
    ∧ (opt = "ADAM" → aL.length < 3 →
      mkDDPGTrainer opt sd ad aL aA cL cA
        = .error (.invalidLayerSchema (overwriteEnds aL sd ad)))
    ∧ (opt = "ADAM" → 3 ≤ aL.length → cL.length < 3 →
      mkDDPGTrainer opt sd ad aL aA cL cA
        = .error (.invalidLayerSchema (overwriteEnds cL sd 1)))
    ∧ (opt = "ADAM" → 3 ≤ aL.length → 3 ≤ cL.length →
      ∃ t, mkDDPGTrainer opt sd ad aL aA cL cA = .ok t
        ∧ t.actor.linearDims.length = aL.length - 1
        ∧ t.critic.linearDims.length = cL.length - 1) := by
  refine ⟨?_, ?_, ?_, ?_⟩
  · intro h
    simp [mkDDPGTrainer, h]
  · intro ho h3
    subst ho
    have ha : ¬ 3 ≤ (overwriteEnds aL sd ad).length := by
      rw [overwriteEnds_length]; omega
    simp [mkDDPGTrainer, mkActorNet, ha]
  · intro ho h3a h3c
    subst ho
    have ha : 3 ≤ (overwriteEnds aL sd ad).length := by
      rw [overwriteEnds_length]; omega
    have hc : ¬ 3 ≤ (overwriteEnds cL sd 1).length := by
      rw [overwriteEnds_length]; omega
    simp [mkDDPGTrainer, mkActorNet, mkCriticNet, ha, hc]
  · intro ho h3a h3c
    subst ho
    have la := overwriteEnds_length aL sd ad
    have lc := overwriteEnds_length cL sd 1
    have ha : 3 ≤ (overwriteEnds aL sd ad).length := by omega
    have hc : 3 ≤ (overwriteEnds cL sd 1).length := by omega
    cases hAC : mkActorNet (overwriteEnds aL sd ad) aA with
    | error e =>
      exfalso
      simp [mkActorNet, ha] at hAC
    | ok actor =>
      cases hCC : mkCriticNet (overwriteEnds cL sd 1) cA ad with
      | error e =>
        exfalso
        simp [mkCriticNet, hc] at hCC
      | ok critic =>
        refine ⟨⟨actor, critic⟩, ?_, ?_, ?_⟩
        · simp [mkDDPGTrainer, hAC, hCC]
        · simp only [mkActorNet, if_pos ha] at hAC
          cases hAC
          simp only [List.length_zipWith, List.length_tail]
          omega
        · simp only [mkCriticNet, if_pos hc] at hCC
          cases hCC
          simp only [List.length_map, List.length_range]
          omega

/-- Witness for C7: a rejected optimizer name, a rejected two-entry layer list,
and a successful three-entry construction with two linear layers per network. -/
theorem construction_validation_witness :
    mkDDPGTrainer "SGD" 2 1 [-1, 4, -1] ["relu", "tanh"] [-1, 8, -1]
        ["relu", "relu", "linear"]
      = .error (.unsupportedOptimizer "SGD")
    ∧ mkDDPGTrainer "ADAM" 2 1 [-1, -1] ["relu"] [-1, 8, -1]
        ["relu", "relu", "linear"]
      = .error (.invalidLayerSchema (overwriteEnds [-1, -1] 2 1))
    ∧ (∃ t, mkDDPGTrainer "ADAM" 2 1 [-1, 4, -1] ["relu", "tanh"] [-1, 8, -1]
          ["relu", "relu", "linear"] = .ok t
        ∧ t.actor.linearDims.length = 2
        ∧ t.critic.linearDims.length = 2) :=
  ⟨(construction_validation "SGD" 2 1 [-1, 4, -1] [-1, 8, -1] ["relu", "tanh"]
      ["relu", "relu", "linear"]).1 (by decide),
    (construction_validation "ADAM" 2 1 [-1, -1] [-1, 8, -1] ["relu"]
      ["relu", "relu", "linear"]).2.1 rfl (by decide),
    (construction_validation "ADAM" 2 1 [-1, 4, -1] [-1, 8, -1] ["relu", "tanh"]
      ["relu", "relu", "linear"]).2.2.2 rfl (by decide) (by decide)⟩

/-- Helper: from layer index 2 on, the critic loop applies no batch norm and no
action injection — it is the plain layer stack. -/
lemma criticLoop_ge_two (bn : ℕ → Batch → Batch) (actSem : String → ℚ → ℚ)
    (layers : List LinearM) (action : Batch) :
    ∀ (acts : List String) (i : ℕ), 2 ≤ i → ∀ x,
      criticLoop bn actSem layers action i acts x
        = plainLayers actSem layers i acts x := by
  intro acts
  induction acts with
  | nil =>
    intro i h x
    rfl
  | cons a rest ih =>
    intro i h x
    have h0 : ¬ i = 0 := by omega
    have h1 : ¬ i = 1 := by omega
    simp only [criticLoop, plainLayers, if_neg h0, if_neg h1]
    exact ih (i + 1) (by omega) _

/-- C8. `CriticNet.forward` splits its input at the stored input width of layer
0; layer 0 batch-normalizes and transforms the state slice only, layer 1
batch-normalizes the layer-0 output and concatenates the (never normalized)
action slice onto it before its linear transform, and every layer of index at
least 2 consumes the previous output directly with no further batch norm. -/
theorem critic_forward_structure (bn : ℕ → Batch → Batch) (actSem : String → ℚ → ℚ)
    (layers : List LinearM) (a0 a1 : String) (rest : List String) (input : Batch) :
    criticForward bn actSem layers (a0 :: a1 :: rest) input
      = plainLayers actSem layers 2 rest
          (applyAct actSem a1 (linearBatch (layers.getD 1 defaultLinear)
            (List.zipWith (· ++ ·)
              (bn 1 (applyAct actSem a0 (linearBatch (layers.getD 0 defaultLinear)
                (bn 0 (input.map (fun r => r.take (layers.headD defaultLinear).inF))))))
              (input.map (fun r => r.drop (layers.headD defaultLinear).inF))))) := by
  have h10 : ¬ (1 : ℕ) = 0 := by omega
  simp only [criticForward, criticLoop, if_pos rfl, if_neg h10]
  exact criticLoop_ge_two bn actSem layers _ rest 2 (by omega) _

/-- C9. Within one `DDPGTrainer.train` call, the actor optimizer step — whose
parameter set is `self.actor.parameters()` only — leaves every critic
parameter tensor (live and target) unchanged, for every update rule and every
parameter store. -/
theorem actor_step_preserves_critic (n : ℕ) (upd : ParamRef → List ℚ → List ℚ)
    (store : ParamRef → List ℚ) (i : ℕ) :
    optimStep (actorOptimizerParams n) upd store (ParamRef.criticP i)
      = store (ParamRef.criticP i)
    ∧ optimStep (actorOptimizerParams n) upd store (ParamRef.criticTargetP i)
      = store (ParamRef.criticTargetP i) := by
  constructor
  · have h : ParamRef.criticP i ∉ actorOptimizerParams n := by
      simp [actorOptimizerParams]
    simp [optimStep, h]
  · have h : ParamRef.criticTargetP i ∉ actorOptimizerParams n := by
      simp [actorOptimizerParams]
    simp [optimStep, h]

/-- C10. `internal_prediction` branches on Python truthiness of the configured
action range: exactly for `None`, numeric zero or an empty sequence the output
is the raw (noise-perturbed if noisy) actor output with no clipping and no
scaling; for every truthy range each row is clipped to `[-1, 1]` and scaled. -/
theorem action_range_truthiness (r : PyVal) (noisy : Bool) (gen : OUNoise)
    (epsStream : List (List ℚ)) (raw : Batch) :
    (r.truthy = false ↔ r = .pnone ∨ r = .pnum 0 ∨ r = .plist [])
    ∧ (r.truthy = false →
        internalPrediction r noisy gen epsStream raw
          = (if noisy then addNoiseRows gen raw epsStream else raw))
    ∧ (r.truthy = true →
        internalPrediction r noisy gen epsStream raw
          = (if noisy then addNoiseRows gen raw epsStream else raw).map (scaleAction r)) := by
  refine ⟨?_, ?_, ?_⟩
  · cases r <;> simp [PyVal.truthy]
  · intro h
    simp [internalPrediction, h]
  · intro h
    simp [internalPrediction, h]

/-- Witness for C10: a zero action range returns the raw actions unchanged; a
range of 2 clips each coordinate to `[-1, 1]` and scales it by 2. -/
theorem action_range_truthiness_witness :
    internalPrediction (.pnum 0) false ⟨1, 3/20, 1/50, 0, [0]⟩ [] [[5], [-3]]
      = [[5], [-3]]
    ∧ internalPrediction (.pnum 2) false ⟨1, 3/20, 1/50, 0, [0]⟩ [] [[5], [-3]]
      = [[2], [-2]] := by
  constructor
  · have h := (action_range_truthiness (.pnum 0) false ⟨1, 3/20, 1/50, 0, [0]⟩ []
      [[5], [-3]]).2.1 (by norm_num [PyVal.truthy])
    simpa using h
  · have h := (action_range_truthiness (.pnum 2) false ⟨1, 3/20, 1/50, 0, [0]⟩ []
      [[5], [-3]]).2.2 (by norm_num [PyVal.truthy])
    rw [h]
    norm_num [scaleAction, clip1]

end DDPG
